import Mathlib

/-!
Verification development for the OptimoV2 scheduling engine.

The definitions below are a shallow embedding of the Python source:

* `src/src/optimization/action_processor.py` (SPLIT/MERGE/ADD/REMOVE on the
  section roster),
* `src/src/optimization/utilization_analyzer.py` (band counts and
  `needs_optimization`),
* `src/src/optimization/registrar_agent_gemini.py` (parse-and-validate of the
  oracle response),
* `src/src/core/milp_soft.py` (hard course-requirement constraints and the
  simple greedy warm start),
* `src/src/core/load.py` (relationship validation), and
* `src/src/pipeline/runner.py` (the iteration loop).

Pandas DataFrames holding the section roster are modelled as `List Sec`
(row order = input order).  Boolean masks, `.loc` column writes, `~mask`
filters and `pd.concat` appends are modelled by `List.map`, `List.filter`
and `(· ++ [row])` respectively, which preserves pandas row-order
semantics.  The enrollment dictionary obtained from
`value_counts().to_dict()` is an association list looked up with default 0.
-/

/-- One row of `Sections_Information.csv`: columns `Section ID`,
`Course ID`, `Teacher Assigned`, `# of Seats Available`.  Capacity is an
`Int`; Python's floor division `//` is modelled by `Int.fdiv`. -/
structure Sec where
  sectionId : String
  courseId : String
  teacher : String
  capacity : Int
  deriving Repr, DecidableEq

/-- Enrollment counts per section id, from
`Student_Assignments['Section ID'].value_counts().to_dict()`. -/
def EnrollMap := List (String × Nat)

/-- `enrollment_counts.get(section_id, 0)`. -/
def getEnroll (m : EnrollMap) (k : String) : Nat :=
  match List.lookup k m with
  | some v => v
  | none => 0

/-- `sections_df[mask].iloc[0]` for the mask `Section ID == id`:
the first row matching the id, if any. -/
def findSec (roster : List Sec) (id : String) : Option Sec :=
  roster.find? (fun s => s.sectionId == id)

/-- `ActionProcessor._split_section` (action_processor.py lines 84-116).
Looks the section up; on a miss prints and returns `(df, False)`.
Otherwise the original row's capacity becomes `c // 2` (the `.loc` write
updates every row matching the mask), and a copy of the row with id
`id + "_B"` and capacity `c - c // 2` is appended by `pd.concat`. -/
def split_section (roster : List Sec) (sectionId : String) :
    List Sec × Bool :=
  match findSec roster sectionId with
  | none => (roster, false)
  | some sec =>
      let c := sec.capacity
      let cap1 := Int.fdiv c 2
      let cap2 := c - cap1
      let updated := roster.map (fun s =>
        if s.sectionId == sectionId then { s with capacity := cap1 } else s)
      (updated ++ [{ sec with sectionId := sectionId ++ "_B", capacity := cap2 }],
       true)

/-- `ActionProcessor._merge_sections` (action_processor.py lines 118-162).
Requires exactly two ids, both present, same course.  The first section's
capacity becomes `max(cap1, cap2, enrolled1 + enrolled2 + 5)` and every row
matching the second id is dropped (`df[~section2_mask]`). -/
def merge_sections (roster : List Sec) (sectionIds : List String)
    (enroll : EnrollMap) : List Sec × Bool :=
  match sectionIds with
  | [a, b] =>
      match findSec roster a, findSec roster b with
      | some s1, some s2 =>
          if s1.courseId ≠ s2.courseId then (roster, false)
          else
            let combined : Int := (getEnroll enroll a : Int) + (getEnroll enroll b : Int)
            let newCap := max s1.capacity (max s2.capacity (combined + 5))
            let updated := roster.map (fun s =>
              if s.sectionId == a then { s with capacity := newCap } else s)
            (updated.filter (fun s => ! (s.sectionId == b)), true)
      | _, _ => (roster, false)
  | _ => (roster, false)

/-- Zero-pad to three digits, Python's `f"{k:03d}"` for `k ≥ 0`. -/
def pad3 (k : Nat) : String :=
  if k < 10 then "00" ++ toString k
  else if k < 100 then "0" ++ toString k
  else toString k

/-- The id-generation loop of `ActionProcessor._add_section`
(action_processor.py lines 179-182).  The first candidate is
`S{len(df)+1:03d}`.  The `while new_id in existing_ids:` body recomputes
`S{len(df)+len(existing_ids)+1:03d}` — a value that does not change between
loop iterations, since neither `sections_df` nor `existing_ids` is modified
in the loop.  Hence the loop exits after at most one rebinding, and spins
forever when both candidates collide with existing ids: `none` models that
divergence. -/
def addNewId (roster : List Sec) : Option String :=
  let existing := roster.map (fun s => s.sectionId)
  let n := roster.length
  let c1 := "S" ++ pad3 (n + 1)
  if c1 ∈ existing then
    let c2 := "S" ++ pad3 (n + existing.length + 1)
    if c2 ∈ existing then none else some c2
  else some c1

/-- `ActionProcessor._add_section` (action_processor.py lines 164-191).
Fails if the course has no sections; otherwise clones the course's first
section under the generated id.  `none` = the id-generation loop diverges. -/
def add_section (roster : List Sec) (courseId : String) :
    Option (List Sec × Bool) :=
  match roster.find? (fun s => s.courseId == courseId) with
  | none => some (roster, false)
  | some template =>
      match addNewId roster with
      | none => none
      | some newId => some (roster ++ [{ template with sectionId := newId }], true)

/-- `ActionProcessor._remove_section` (action_processor.py lines 193-210).
Safety check first: if current enrollment is at least
`min_enrollment_to_keep` (config default 5) the removal is rejected and the
roster is returned unchanged; otherwise every row matching the id is
dropped. -/
def remove_section (roster : List Sec) (sectionId : String)
    (enroll : EnrollMap) (minEnrollmentToKeep : Nat) : List Sec × Bool :=
  if minEnrollmentToKeep ≤ getEnroll enroll sectionId then (roster, false)
  else (roster.filter (fun s => ! (s.sectionId == sectionId)), true)

/-- A validated registrar action, as dispatched by
`ActionProcessor.apply_actions` on the `action` field.  `other` covers any
unrecognized action type (the `else: success = False` branch). -/
inductive RAction where
  | split (sectionId : String)
  | merge (sectionIds : List String)
  | add (courseId : String)
  | remove (sectionId : String)
  | other
  deriving Repr, DecidableEq

/-- One dispatch step of `apply_actions`: apply a single action to the
current roster.  `none` = the step diverges (only possible for ADD). -/
def applyOne (minEnrollmentToKeep : Nat) (enroll : EnrollMap)
    (roster : List Sec) : RAction → Option (List Sec × Bool)
  | RAction.split id => some (split_section roster id)
  | RAction.merge ids => some (merge_sections roster ids enroll)
  | RAction.add c => add_section roster c
  | RAction.remove id => some (remove_section roster id enroll minEnrollmentToKeep)
  | RAction.other => some (roster, false)

/-- The audit log built by `apply_actions`
(`changes_log = {actions_requested, actions_applied, actions_failed, details}`). -/
structure ChangesLog where
  requested : Nat
  applied : Nat
  failed : Nat
  details : List (RAction × Bool)
  deriving Repr, DecidableEq

/-- A heap of DataFrame objects: Python variables such as the caller's
`sections_df` and the local `modified_sections` are references (cell
indices) into this heap, so that in-place mutation (`df.loc[mask, col] = v`
inside the helpers) versus rebinding is modelled explicitly. -/
structure Heap where
  cells : List (List Sec)
  deriving Repr, DecidableEq

/-- Dereference a DataFrame cell. -/
def Heap.read (h : Heap) (r : Nat) : List Sec := (h.cells.get? r).getD []

/-- Overwrite a DataFrame cell (in-place mutation of that object). -/
def Heap.write (h : Heap) (r : Nat) (v : List Sec) : Heap :=
  ⟨h.cells.set r v⟩

/-- The action loop of `apply_actions` (action_processor.py lines 38-80):
each helper receives the `modified_sections` reference (cell `m`), performs
its in-place writes on that object and its result is rebound to the same
local variable, so every write lands in cell `m`.  The log is updated per
action; an action whose helper raises would also be recorded as failed, but
the typed `Action` carries all fields the helpers read, so the only
non-returning path is ADD's divergent id loop (`none`). -/
def applyLoop (minEnrollmentToKeep : Nat) (enroll : EnrollMap) (m : Nat) :
    List RAction → Heap → ChangesLog → Option (Heap × ChangesLog)
  | [], h, log => some (h, log)
  | a :: rest, h, log =>
      match applyOne minEnrollmentToKeep enroll (h.read m) a with
      | none => none
      | some (roster', ok) =>
          let h' := h.write m roster'
          let log' :=
            if ok then
              { log with applied := log.applied + 1,
                         details := log.details ++ [(a, true)] }
            else
              { log with failed := log.failed + 1,
                         details := log.details ++ [(a, false)] }
          applyLoop minEnrollmentToKeep enroll m rest h' log'

/-- `ActionProcessor.apply_actions` (action_processor.py lines 18-82).
`sections_df` is the caller's DataFrame at cell `r`; line 23
(`modified_sections = sections_df.copy()`) allocates a fresh cell `m`
holding a copy, and the whole action loop works on cell `m`.  Returns the
final heap, the reference to the modified roster, and the audit log. -/
def apply_actions (minEnrollmentToKeep : Nat) (enroll : EnrollMap)
    (h : Heap) (r : Nat) (actions : List RAction) :
    Option (Heap × Nat × ChangesLog) :=
  let m := h.cells.length
  let h1 : Heap := ⟨h.cells ++ [h.read r]⟩
  match applyLoop minEnrollmentToKeep enroll m actions h1
      { requested := actions.length, applied := 0, failed := 0, details := [] } with
  | none => none
  | some (h2, log) => some (h2, m, log)

/-!
### Utilization Analyzer (`utilization_analyzer.py`)
-/

/-- `utilization = enrolled / capacity if capacity > 0 else 0`
(analyze_schedule, line 38), as an exact rational. -/
def utilization (enrolled : Nat) (capacity : Int) : ℚ :=
  if 0 < capacity then (enrolled : ℚ) / (capacity : ℚ) else 0

/-- The per-section utilization list built by `analyze_schedule`: one entry
per row of the sections file, in row order. -/
def utilData (roster : List Sec) (enroll : EnrollMap) : List ℚ :=
  roster.map (fun s => utilization (getEnroll enroll s.sectionId) s.capacity)

/-- The `utilization_summary` block of the analysis dict
(analyze_schedule, lines 72-77): band counts against the target band. -/
structure UtilSummary where
  under_target : Nat
  optimal_range : Nat
  over_target : Nat
  deriving Repr, DecidableEq

/-- `under_target = #(u < min_target)`, `optimal_range = #(min ≤ u ≤ max)`,
`over_target = #(u > max_target)`. -/
def utilization_summary (minTarget maxTarget : ℚ) (utils : List ℚ) :
    UtilSummary :=
  { under_target := utils.countP (fun u => decide (u < minTarget)),
    optimal_range := utils.countP (fun u => decide (minTarget ≤ u ∧ u ≤ maxTarget)),
    over_target := utils.countP (fun u => decide (maxTarget < u)) }

/-- `UtilizationAnalyzer.needs_optimization` (lines 272-282):
`outside_target = under_target + over_target; return outside_target > 0`. -/
def needs_optimization (a : UtilSummary) : Bool :=
  decide (0 < a.under_target + a.over_target)

/-- `UtilizationAnalyzer.calculate_optimization_score` (lines 254-264):
`under*2 + over*3 + optimal*(-0.5)`, lower is better. -/
def calculate_optimization_score (a : UtilSummary) : ℚ :=
  (a.under_target : ℚ) * 2 + (a.over_target : ℚ) * 3 - (a.optimal_range : ℚ) / 2

/-!
### Decision Oracle Adapter (`registrar_agent_gemini.py`)

`json.loads` is Python stdlib, not repository code; its outcome is modelled
as `Option Json`: `none` is a `JSONDecodeError` (caught at line 191),
`some v` the parsed document.
-/

/-- A parsed JSON document. -/
inductive Json where
  | jnull
  | jbool (b : Bool)
  | jnum (q : ℚ)
  | jstr (s : String)
  | jarr (items : List Json)
  | jobj (fields : List (String × Json))
  deriving Repr

/-- Outcome of `RegistrarAgentGemini._validate_action` on a dict:
`ok`/`bad` are the `True`/`False` returns; `exc` marks the `TypeError`
raised by `len(section_ids)` inside the error print when `section_ids` is
not a list (line 221), which escapes to the `except Exception` handler of
`_parse_actions`. -/
inductive VOut where
  | ok
  | bad
  | exc
  deriving Repr, DecidableEq

/-- The `required_fields` table of `_validate_action` (lines 202-207). -/
def requiredFields (t : String) : List String :=
  if t = "SPLIT" then ["action", "section_id", "reason"]
  else if t = "MERGE" then ["action", "section_ids", "reason"]
  else if t = "ADD" then ["action", "course", "reason"]
  else if t = "REMOVE" then ["action", "section_id", "reason"]
  else []

/-- `RegistrarAgentGemini._validate_action` (lines 199-224) on a JSON
object's fields.  `action.get('action')` must be one of the four keys of
`required_fields`; each required field must be present; a MERGE must carry
a `section_ids` list of length exactly 2. -/
def validate_action (fields : List (String × Json)) : VOut :=
  match List.lookup "action" fields with
  | some (Json.jstr t) =>
      if (requiredFields t).isEmpty then VOut.bad
      else if (requiredFields t).any
          (fun f => ! (fields.map Prod.fst).contains f) then VOut.bad
      else if t = "MERGE" then
        match List.lookup "section_ids" fields with
        | some (Json.jarr ids) => if ids.length = 2 then VOut.ok else VOut.bad
        | some _ => VOut.exc
        | none => VOut.bad
      else VOut.ok
  | some _ => VOut.bad
  | none => VOut.bad

/-- The validation loop of `_parse_actions` (lines 182-188).  A non-dict
element makes `action.get` raise `AttributeError`, and a `VOut.exc` from
validation raises `TypeError`; either lands in the `except Exception`
handler, which discards the accumulated list and returns `[]` — modelled by
`none`. -/
def parse_loop : List Json → List Json → Option (List Json)
  | [], acc => some acc
  | j :: rest, acc =>
      match j with
      | Json.jobj fields =>
          match validate_action fields with
          | VOut.ok => parse_loop rest (acc ++ [j])
          | VOut.bad => parse_loop rest acc
          | VOut.exc => none
      | _ => none

/-- `RegistrarAgentGemini._parse_actions` (lines 169-197).  A decode error
returns `[]`; a non-list document returns `[]`; otherwise the validated
sub-list truncated to `max_changes` (config default 10).  Every exception
path is caught inside the function, so it is total — it never raises to the
caller. -/
def parse_actions (maxChanges : Nat) (parsed : Option Json) : List Json :=
  match parsed with
  | some (Json.jarr items) =>
      match parse_loop items [] with
      | some validated => validated.take maxChanges
      | none => []
  | some _ => []
  | none => []

/-!
### Greedy warm start and model construction (`milp_soft.py`, `load.py`)

Students are modelled together with their preference row: a list of
`(student_id, requested_courses)` in input order, where
`requested_courses` is the `Preferred Sections` cell already split on
`';'`.
-/

/-- `course_to_sections[c]`: the section ids of course `c` in input order
(dict built by insertion over `sections.iterrows()`,
milp_soft.py lines 50-54).  `c in course_to_sections` iff this list is
nonempty. -/
def courseSections (roster : List Sec) (c : String) : List String :=
  (roster.filter (fun s => s.courseId == c)).map (fun s => s.sectionId)

/-- `sections.set_index('Section ID')['# of Seats Available'].to_dict()`
(milp_soft.py line 319).  Section ids are assumed unique per roster, so
first-match lookup agrees with the dict. -/
def sectionCapacityMap (roster : List Sec) : List (String × Int) :=
  roster.map (fun s => (s.sectionId, s.capacity))

/-- `section_capacity[sid]`; every id queried comes from the same roster
the map was built from, so the key is always present. -/
def getCap (cap : List (String × Int)) (sid : String) : Int :=
  match List.lookup sid cap with
  | some v => v
  | none => 0

/-- `section_capacity[section_id] -= 1`. -/
def decCap (cap : List (String × Int)) (sid : String) : List (String × Int) :=
  cap.map (fun p => if p.1 == sid then (p.1, p.2 - 1) else p)

/-- The inner loop of `_simple_greedy_initial_solution`
(milp_soft.py lines 334-338): the first section of the course, in input
order, with `section_capacity[section_id] > 0`. -/
def firstOpenSection (cap : List (String × Int)) (secs : List String) :
    Option String :=
  secs.find? (fun sid => decide (0 < getCap cap sid))

/-- The per-student course loop of `_simple_greedy_initial_solution`
(milp_soft.py lines 332-338).  The guard
`student_id not in student_assignments` makes the loop stop contributing
as soon as one assignment is made, so for a not-yet-assigned student the
loop finds the first course (in preference order) owning a section with
remaining capacity, assigns that section and decrements its counter.
A course absent from `course_to_sections` has no sections, so its
(empty) section scan finds nothing and the loop moves on. -/
def greedyCourseLoop (roster : List Sec) :
    List (String × Int) → List String → Option String × List (String × Int)
  | cap, [] => (none, cap)
  | cap, c :: rest =>
      match firstOpenSection cap (courseSections roster c) with
      | some sid => (some sid, decCap cap sid)
      | none => greedyCourseLoop roster cap rest

/-- The student-assignment phase of
`ScheduleOptimizer._simple_greedy_initial_solution`
(milp_soft.py lines 316-338): students processed in input order against a
shared capacity map; `student_assignments` is a dict keyed by student id,
here an association list in insertion order.  Returns the assignments and
the final capacity map.  The phase never raises: unmet demand simply
leaves a student out of the dict.  `greedyStep` is the loop body for one
student `p`: skip if the student already holds an assignment, otherwise
run the course loop and record the result. -/
def greedyStep (roster : List Sec)
    (st : List (String × String) × List (String × Int))
    (p : String × List String) :
    List (String × String) × List (String × Int) :=
  if st.1.any (fun q => q.1 == p.1) then st
  else
    match greedyCourseLoop roster st.2 p.2 with
    | (some sid, cap') => (st.1 ++ [(p.1, sid)], cap')
    | (none, cap') => (st.1, cap')

/-- The full student loop: fold `greedyStep` over the students in input
order, starting from an empty assignment dict and the roster's capacity
map. -/
def simple_greedy_assignments (students : List (String × List String))
    (roster : List Sec) : List (String × String) × List (String × Int) :=
  students.foldl (greedyStep roster) ([], sectionCapacityMap roster)

/-- `ScheduleDataLoader.MAX_LOG_ENTRIES`: only this many preference rows
are validated (load.py lines 7, 106). -/
def MAX_LOG_ENTRIES : Nat := 100

/-- `ScheduleDataLoader.validate_relationships` (load.py lines 104-112),
course part: for each of the first `MAX_LOG_ENTRIES` preference rows, the
requested courses with no section in the roster.  Each pair
`(student_id, unknown_courses)` with a nonempty second component becomes
one logged issue string `"Student {id} references unknown courses: {set}"`.
The function only appends to the issue list and log files — it raises
nothing, and `load_all` proceeds to return the data afterwards. -/
def validate_relationships (roster : List Sec)
    (prefs : List (String × List String)) : List (String × List String) :=
  ((prefs.take MAX_LOG_ENTRIES).map (fun p =>
      (p.1, p.2.filter (fun c => ! (roster.map (fun s => s.courseId)).contains c)))).filter
    (fun q => ! q.2.isEmpty)

/-- `ScheduleDataLoader.load_all` (load.py lines 119-131): loads, runs
validation, and returns the data.  Validation issues are logged but never
abort the load, so the result is the unchanged data together with the
logged issues. -/
def load_all (roster : List Sec) (prefs : List (String × List String)) :
    (List Sec × List (String × List String)) × List (String × List String) :=
  ((roster, prefs), validate_relationships roster prefs)

/-- Constraint block 3 of `ScheduleOptimizer.add_constraints`
(milp_soft.py lines 180-195): one hard course-requirement constraint
`hard_course_requirement_{student}_{course}` per student and requested
course — but only when `course_id in self.course_to_sections`; a requested
course with no sections is silently skipped, and construction continues
without error. -/
def hard_course_constraints (students : List (String × List String))
    (roster : List Sec) : List (String × String) :=
  students.flatMap (fun p =>
    (p.2.filter (fun c => ! (courseSections roster c).isEmpty)).map
      (fun c => (p.1, c)))

/-!
### Iteration/Run Orchestrator (`runner.py`)

The environment of one run — the MILP subprocess outcome, the analyzer
summary of each iteration's output directory, the registrar's decisions
and the count of successfully applied actions — is modelled as functions
of the iteration index, since each is produced by a collaborator outside
the loop being verified.
-/

/-- Collaborator responses per iteration index. -/
structure RunEnv where
  milpOk : Nat → Bool
  analysis : Nat → UtilSummary
  decideActions : Nat → List RAction
  appliedCount : Nat → Nat

/-- The loop state of `PipelineRunner.run` (runner.py lines 63-72). -/
structure RunState where
  iter : Nat
  bestIteration : Nat
  bestScore : Option ℚ
  results : List ℚ
  consecutiveNoChange : Nat
  deriving Repr, DecidableEq

/-- `score < best_score`, where the initial best is `float('inf')`
(modelled as `none`). -/
def ltBest (s : ℚ) : Option ℚ → Bool
  | none => true
  | some b => decide (s < b)

/-- The `for i in range(max_iterations)` loop of `PipelineRunner.run`
(runner.py lines 74-180), with `max_no_change = 1` hard-coded at line 70.
The fuel argument counts the remaining range elements; every `break`
returns the current state.  Per pass: a failed MILP run breaks; otherwise
the score is computed and recorded and the best tracker updated; a
converged schedule (`needs_optimization` false) breaks; on every
iteration but the last the registrar is consulted — an empty decision list
or zero applied actions increments `consecutive_no_change` and breaks as
soon as it reaches `max_no_change`, a positive applied count resets it. -/
def runLoop (env : RunEnv) (K : Nat) : Nat → RunState → RunState
  | 0, st => st
  | fuel + 1, st =>
      let i := st.iter
      if env.milpOk i = false then st
      else
        let sc := calculate_optimization_score (env.analysis i)
        let st1 : RunState :=
          { st with
            bestIteration := if ltBest sc st.bestScore then i else st.bestIteration,
            bestScore := if ltBest sc st.bestScore then some sc else st.bestScore,
            results := st.results ++ [sc] }
        if needs_optimization (env.analysis i) = false then st1
        else if i + 1 < K then
          if (env.decideActions i).isEmpty then
            let st2 := { st1 with consecutiveNoChange := st1.consecutiveNoChange + 1 }
            if 1 ≤ st2.consecutiveNoChange then st2
            else runLoop env K fuel { st2 with iter := i + 1 }
          else if env.appliedCount i = 0 then
            let st2 := { st1 with consecutiveNoChange := st1.consecutiveNoChange + 1 }
            if 1 ≤ st2.consecutiveNoChange then st2
            else runLoop env K fuel { st2 with iter := i + 1 }
          else runLoop env K fuel { st1 with consecutiveNoChange := 0, iter := i + 1 }
        else runLoop env K fuel { st1 with iter := i + 1 }

/-- The summary dict returned by `PipelineRunner.run`
(runner.py lines 191-199).  `finalPath` stands for
`str(run_path / 'final')`. -/
structure RunResult where
  status : String
  bestIteration : Nat
  bestScore : Option ℚ
  totalIterations : Nat
  finalPath : String
  deriving Repr, DecidableEq

/-- `PipelineRunner.run` (runner.py lines 52-199): run the loop from
iteration 0 with `best_score = inf`, then package the result
(`total_iterations = len(results)`). -/
def pipeline_run (env : RunEnv) (K : Nat) : RunResult :=
  let st := runLoop env K K
    { iter := 0, bestIteration := 0, bestScore := none, results := [],
      consecutiveNoChange := 0 }
  { status := "completed", bestIteration := st.bestIteration,
    bestScore := st.bestScore, totalIterations := st.results.length,
    finalPath := "final" }

/-!
### Helper lemmas
-/

lemma countP_eq_zero_of_all {l : List ℚ} {p : ℚ → Bool}
    (h : ∀ u ∈ l, p u = false) : l.countP p = 0 := by
  induction l with
  | nil => simp
  | cons a t ih =>
      rw [List.countP_cons, h a (by simp)]
      simp [ih (fun u hu => h u (by simp [hu]))]

/-- Claim C4: `needs_optimization` is true exactly when the summary records
at least one section outside the target band (the sum of the `under_target`
and `over_target` counts is positive), and on data whose every utilization
lies inside `[min_target, max_target]` it is false. -/
theorem needs_optimization_iff_outside_band :
    (∀ a : UtilSummary,
        needs_optimization a = true ↔ 0 < a.under_target + a.over_target) ∧
    (∀ (minTarget maxTarget : ℚ) (utils : List ℚ),
        (∀ u ∈ utils, minTarget ≤ u ∧ u ≤ maxTarget) →
        needs_optimization (utilization_summary minTarget maxTarget utils) = false) := by
  constructor
  · intro a
    simp [needs_optimization]
  · intro minT maxT utils h
    have hunder : utils.countP (fun u => decide (u < minT)) = 0 :=
      countP_eq_zero_of_all (fun u hu => by
        have := (h u hu).1
        simp [decide_eq_false_iff_not]
        exact this)
    have hover : utils.countP (fun u => decide (maxT < u)) = 0 :=
      countP_eq_zero_of_all (fun u hu => by
        have := (h u hu).2
        simp [decide_eq_false_iff_not]
        exact this)
    simp [needs_optimization, utilization_summary, hunder, hover]

theorem needs_optimization_iff_outside_band_witness :
    needs_optimization { under_target := 1, optimal_range := 3, over_target := 0 } = true ∧
    needs_optimization
      (utilization_summary (7/10) (11/10) [1, 9/10, 11/10]) = false := by
  constructor
  · exact (needs_optimization_iff_outside_band.1 _).2 (by decide)
  · exact needs_optimization_iff_outside_band.2 (7/10) (11/10) [1, 9/10, 11/10]
      (by intro u hu; fin_cases hu <;> constructor <;> norm_num)

/-- Claim C3: for every decode outcome of the oracle response,
`_parse_actions` returns at most `max_changes` validated actions; a decode
failure or a non-list document yields the empty list.  The embedding is a
total function: every exception path inside `_parse_actions` is caught and
mapped to a value, so nothing is raised to the caller. -/
theorem parse_actions_bounded_and_safe :
    (∀ (maxChanges : Nat) (parsed : Option Json),
        (parse_actions maxChanges parsed).length ≤ maxChanges) ∧
    (∀ maxChanges : Nat, parse_actions maxChanges none = []) ∧
    (∀ (maxChanges : Nat) (v : Json), (∀ items, v ≠ Json.jarr items) →
        parse_actions maxChanges (some v) = []) := by
  refine ⟨?_, ?_, ?_⟩
  · intro maxChanges parsed
    match parsed with
    | none => simp [parse_actions]
    | some (Json.jnull) => simp [parse_actions]
    | some (Json.jbool b) => simp [parse_actions]
    | some (Json.jnum q) => simp [parse_actions]
    | some (Json.jstr s) => simp [parse_actions]
    | some (Json.jobj f) => simp [parse_actions]
    | some (Json.jarr items) =>
        simp only [parse_actions]
        match parse_loop items [] with
        | none => simp
        | some validated =>
            simp [List.length_take]
  · intro maxChanges; rfl
  · intro maxChanges v hv
    match v with
    | Json.jnull => rfl
    | Json.jbool b => rfl
    | Json.jnum q => rfl
    | Json.jstr s => rfl
    | Json.jobj f => rfl
    | Json.jarr items => exact absurd rfl (hv items)

theorem parse_actions_bounded_and_safe_witness :
    (parse_actions 10 (some (Json.jarr
        [Json.jobj [("action", Json.jstr "ADD"), ("course", Json.jstr "C1"),
                    ("reason", Json.jstr "demand")]]))).length ≤ 10 ∧
    parse_actions 10 none = [] ∧
    parse_actions 10 (some (Json.jstr "not json list")) = [] :=
  ⟨parse_actions_bounded_and_safe.1 10 _,
   parse_actions_bounded_and_safe.2.1 10,
   parse_actions_bounded_and_safe.2.2 10 (Json.jstr "not json list")
     (fun _ h => Json.noConfusion h)⟩

/-- Claim C8: REMOVE is rejected (roster unchanged, success flag false)
whenever the target section's enrollment reaches the
`min_enrollment_to_keep` threshold (config default 5), and it succeeds only
when enrollment is strictly below that threshold. -/
theorem remove_section_safety :
    (∀ (roster : List Sec) (sectionId : String) (enroll : EnrollMap)
        (minKeep : Nat),
        minKeep ≤ getEnroll enroll sectionId →
        remove_section roster sectionId enroll minKeep = (roster, false)) ∧
    (∀ (roster : List Sec) (sectionId : String) (enroll : EnrollMap)
        (minKeep : Nat),
        (remove_section roster sectionId enroll minKeep).2 = true →
        getEnroll enroll sectionId < minKeep) := by
  constructor
  · intro roster id e m h
    simp [remove_section, h]
  · intro roster id e m h
    by_contra hc
    push_neg at hc
    simp [remove_section, hc] at h

theorem remove_section_safety_witness :
    remove_section [] "S1" [("S1", 7)] 5 = ([], false) ∧
    getEnroll [("S1", 2)] "S1" < 5 :=
  ⟨remove_section_safety.1 [] "S1" [("S1", 7)] 5 (by decide),
   remove_section_safety.2 [] "S1" [("S1", 2)] 5 (by decide)⟩

/-- Claim C9 (code bug): the spec promises ADD terminates with a freshly
generated unique id whenever the course has sections to clone, but the
source's id-generation `while` loop recomputes the same candidate
`S{len(sections_df) + len(existing_ids) + 1:03d}` on every pass, so it
never terminates when both generated candidates collide with existing ids.
On the roster below (2 sections named S003 and S005) the candidates are
S003 and then S005 forever. -/
theorem add_section_diverges_on_colliding_ids :
    add_section
      [{ sectionId := "S003", courseId := "C1", teacher := "T1", capacity := 30 },
       { sectionId := "S005", courseId := "C1", teacher := "T2", capacity := 30 }]
      "C1" = none := by
  decide

lemma find?_filter_of_imp {α : Type} (l : List α) (p q : α → Bool)
    (h : ∀ x, p x = true → q x = true) :
    (l.filter q).find? p = l.find? p := by
  induction l with
  | nil => rfl
  | cons a t ih =>
      by_cases hp : p a = true
      · have hq := h a hp
        rw [List.filter_cons, if_pos (by simp [hq])]
        rw [List.find?_cons_of_pos _ hp, List.find?_cons_of_pos _ hp]
      · by_cases hq : q a = true
        · rw [List.filter_cons, if_pos (by simp [hq])]
          rw [List.find?_cons_of_neg _ (by simpa using hp)]
          rw [List.find?_cons_of_neg _ (by simpa using hp)]
          exact ih
        · rw [List.filter_cons, if_neg (by simp [hq])]
          rw [ih, List.find?_cons_of_neg _ (by simpa using hp)]

lemma find?_map_of_pres (l : List Sec) (f : Sec → Sec) (p : Sec → Bool)
    (hf : ∀ s, p (f s) = p s) :
    (l.map f).find? p = (l.find? p).map f := by
  induction l with
  | nil => rfl
  | cons a t ih =>
      by_cases hp : p a = true
      · simp only [List.map_cons]
        rw [List.find?_cons_of_pos _ (by rw [hf]; exact hp),
            List.find?_cons_of_pos _ hp]
        rfl
      · simp only [List.map_cons]
        rw [List.find?_cons_of_neg _ (by rw [hf]; simpa using hp),
            List.find?_cons_of_neg _ (by simpa using hp), ih]

/-- Claim C6: a SPLIT on a present section id succeeds; every row carrying
the id gets capacity `c // 2` and exactly one new row with id `id ++ "_B"`
and capacity `c - c // 2` (course and teacher copied from the original) is
appended, the two capacities summing to `c`.  On an absent id the action
fails and the roster is returned unchanged. -/
theorem split_section_spec :
    (∀ (roster : List Sec) (id : String) (sec : Sec),
        findSec roster id = some sec →
        split_section roster id =
          (roster.map (fun s => if s.sectionId == id then
              { s with capacity := Int.fdiv sec.capacity 2 } else s)
            ++ [{ sec with sectionId := id ++ "_B",
                           capacity := sec.capacity - Int.fdiv sec.capacity 2 }],
           true) ∧
        Int.fdiv sec.capacity 2 + (sec.capacity - Int.fdiv sec.capacity 2)
          = sec.capacity) ∧
    (∀ (roster : List Sec) (id : String),
        findSec roster id = none →
        split_section roster id = (roster, false)) := by
  constructor
  · intro roster id sec h
    refine ⟨?_, by ring⟩
    simp [split_section, h]
  · intro roster id h
    simp [split_section, h]

theorem split_section_spec_witness :
    split_section
      [{ sectionId := "S1", courseId := "C1", teacher := "T1", capacity := 31 }]
      "S1" =
      ([{ sectionId := "S1", courseId := "C1", teacher := "T1", capacity := 15 },
        { sectionId := "S1_B", courseId := "C1", teacher := "T1", capacity := 16 }],
       true) ∧
    split_section [] "S1" = ([], false) := by
  constructor
  · exact ((split_section_spec.1
      [{ sectionId := "S1", courseId := "C1", teacher := "T1", capacity := 31 }]
      "S1" { sectionId := "S1", courseId := "C1", teacher := "T1", capacity := 31 }
      (by decide)).1).trans (by decide)
  · exact split_section_spec.2 [] "S1" (by decide)

/-- Claim C7: a MERGE of two distinct present sections of the same course
succeeds; afterwards the first id's (first) row carries capacity
`max(cap_a, cap_b, enrolled_a + enrolled_b + 5)` and no row with the second
id remains.  A missing id or a course mismatch fails and leaves the roster
unchanged. -/
theorem merge_sections_spec :
    (∀ (roster : List Sec) (enroll : EnrollMap) (a b : String) (s1 s2 : Sec),
        a ≠ b →
        findSec roster a = some s1 →
        findSec roster b = some s2 →
        s1.courseId = s2.courseId →
        (merge_sections roster [a, b] enroll).2 = true ∧
        findSec (merge_sections roster [a, b] enroll).1 a =
          some { s1 with capacity :=
                           max s1.capacity (max s2.capacity
                             ((getEnroll enroll a : Int) + (getEnroll enroll b : Int) + 5)) } ∧
        (∀ s ∈ (merge_sections roster [a, b] enroll).1, s.sectionId ≠ b)) ∧
    (∀ (roster : List Sec) (enroll : EnrollMap) (a b : String),
        (findSec roster a = none ∨ findSec roster b = none) →
        merge_sections roster [a, b] enroll = (roster, false)) ∧
    (∀ (roster : List Sec) (enroll : EnrollMap) (a b : String) (s1 s2 : Sec),
        findSec roster a = some s1 → findSec roster b = some s2 →
        s1.courseId ≠ s2.courseId →
        merge_sections roster [a, b] enroll = (roster, false)) := by
  refine ⟨?_, ?_, ?_⟩
  · intro roster enroll a b s1 s2 hab h1 h2 hco
    have hm : merge_sections roster [a, b] enroll =
        ((roster.map (fun s => if s.sectionId == a then
            { s with capacity := max s1.capacity (max s2.capacity
              ((getEnroll enroll a : Int) + (getEnroll enroll b : Int) + 5)) }
          else s)).filter (fun s => ! (s.sectionId == b)), true) := by
      simp [merge_sections, h1, h2, hco]
    have hpa : s1.sectionId == a := by
      have := List.find?_some h1
      simpa using this
    refine ⟨by rw [hm], ?_, ?_⟩
    · rw [hm]
      simp only [findSec]
      rw [find?_filter_of_imp _ (fun (s : Sec) => s.sectionId == a)
        (fun (s : Sec) => ! (s.sectionId == b)) (fun x hx => by
          have hxa : x.sectionId = a := by simpa using hx
          simp [hxa, hab])]
      rw [find?_map_of_pres _ _ (fun (s : Sec) => s.sectionId == a)
        (fun s => by by_cases hs : (s.sectionId == a) = true <;> simp [hs])]
      rw [show roster.find? (fun s => s.sectionId == a) = some s1 from h1]
      simp [Option.map, hpa]
    · rw [hm]
      intro s hs
      have := (List.mem_filter.mp hs).2
      simpa using this
  · intro roster enroll a b h
    rcases h with h | h
    · simp [merge_sections, h]
    · cases ha : findSec roster a <;> simp [merge_sections, ha, h]
  · intro roster enroll a b s1 s2 h1 h2 hco
    simp [merge_sections, h1, h2, hco]

theorem merge_sections_spec_witness :
    (merge_sections
      [{ sectionId := "S1", courseId := "C1", teacher := "T1", capacity := 30 },
       { sectionId := "S2", courseId := "C1", teacher := "T2", capacity := 20 }]
      ["S1", "S2"] [("S1", 10), ("S2", 26)]).2 = true ∧
    findSec (merge_sections
      [{ sectionId := "S1", courseId := "C1", teacher := "T1", capacity := 30 },
       { sectionId := "S2", courseId := "C1", teacher := "T2", capacity := 20 }]
      ["S1", "S2"] [("S1", 10), ("S2", 26)]).1 "S1" =
      some { sectionId := "S1", courseId := "C1", teacher := "T1", capacity := 41 } := by
  have h := merge_sections_spec.1
    [{ sectionId := "S1", courseId := "C1", teacher := "T1", capacity := 30 },
     { sectionId := "S2", courseId := "C1", teacher := "T2", capacity := 20 }]
    [("S1", 10), ("S2", 26)] "S1" "S2"
    { sectionId := "S1", courseId := "C1", teacher := "T1", capacity := 30 }
    { sectionId := "S2", courseId := "C1", teacher := "T2", capacity := 20 }
    (by decide) (by decide) (by decide) rfl
  exact ⟨h.1, h.2.1.trans (by decide)⟩

lemma Heap.read_write_ne (h : Heap) (m r : Nat) (v : List Sec) (hne : r ≠ m) :
    (h.write m v).read r = h.read r := by
  simp only [Heap.read, Heap.write]
  rw [List.get?_set_ne v h.cells (fun he => hne he.symm)]

lemma applyLoop_preserves (minK : Nat) (enroll : EnrollMap) (m : Nat) :
    ∀ (acts : List RAction) (h : Heap) (log : ChangesLog)
      (res : Heap × ChangesLog),
      applyLoop minK enroll m acts h log = some res →
      ∀ r, r ≠ m → res.1.read r = h.read r := by
  intro acts
  induction acts with
  | nil =>
      intro h log res hres r hr
      simp only [applyLoop, Option.some.injEq] at hres
      rw [← hres]
  | cons a rest ih =>
      intro h log res hres r hr
      simp only [applyLoop] at hres
      cases hao : applyOne minK enroll (h.read m) a with
      | none => rw [hao] at hres; simp at hres
      | some pr =>
          rw [hao] at hres
          cases pr with
          | mk roster' ok =>
              have hrec := ih (h.write m roster') _ res hres r hr
              rw [hrec, Heap.read_write_ne h m r roster' hr]

/-- Claim C10: `apply_actions` copies the caller's roster into a fresh
DataFrame (line 23) and performs every SPLIT/MERGE/ADD/REMOVE mutation on
that copy, so whatever actions are supplied — and whether they succeed or
fail — the caller's cell is bit-identical before and after the call. -/
theorem apply_actions_preserves_caller :
    ∀ (minK : Nat) (enroll : EnrollMap) (h : Heap) (r : Nat)
      (actions : List RAction) (res : Heap × Nat × ChangesLog),
      r < h.cells.length →
      apply_actions minK enroll h r actions = some res →
      res.1.read r = h.read r := by
  intro minK enroll h r actions res hr hres
  simp only [apply_actions] at hres
  cases hal : applyLoop minK enroll h.cells.length actions
      ⟨h.cells ++ [h.read r]⟩
      { requested := actions.length, applied := 0, failed := 0, details := [] } with
  | none => rw [hal] at hres; simp at hres
  | some pr =>
      rw [hal] at hres
      simp only [Option.some.injEq] at hres
      have hne : r ≠ h.cells.length := Nat.ne_of_lt hr
      have h1 := applyLoop_preserves minK enroll h.cells.length actions
        ⟨h.cells ++ [h.read r]⟩
        { requested := actions.length, applied := 0, failed := 0, details := [] }
        pr hal r hne
      have h2 : Heap.read ⟨h.cells ++ [h.read r]⟩ r = h.read r := by
        simp only [Heap.read]
        rw [List.get?_append hr]
      rw [← hres]
      exact h1.trans h2

theorem apply_actions_preserves_caller_witness :
    Heap.read
      ⟨[[{ sectionId := "S1", courseId := "C1", teacher := "T1", capacity := 30 }],
        [{ sectionId := "S1", courseId := "C1", teacher := "T1", capacity := 15 },
         { sectionId := "S1_B", courseId := "C1", teacher := "T1", capacity := 15 }]]⟩ 0 =
    Heap.read
      ⟨[[{ sectionId := "S1", courseId := "C1", teacher := "T1", capacity := 30 }]]⟩ 0 :=
  apply_actions_preserves_caller 5 []
    ⟨[[{ sectionId := "S1", courseId := "C1", teacher := "T1", capacity := 30 }]]⟩ 0
    [RAction.split "S1"]
    (⟨[[{ sectionId := "S1", courseId := "C1", teacher := "T1", capacity := 30 }],
       [{ sectionId := "S1", courseId := "C1", teacher := "T1", capacity := 15 },
        { sectionId := "S1_B", courseId := "C1", teacher := "T1", capacity := 15 }]]⟩,
     1,
     { requested := 1, applied := 1, failed := 0,
       details := [(RAction.split "S1", true)] })
    (by decide) (by decide)

/-- Claim C5 (counterexample): the claim says each student is assigned to a
section of EVERY requested course with remaining capacity.  But
`student_assignments` is a dict keyed by student id and the loop guard
`student_id not in student_assignments` blocks any second assignment, so a
student requesting two courses — both with open sections — receives only
the first: no pair for `C2` appears even though `SEC2` still has capacity
after the first assignment. -/
theorem simple_greedy_second_course_unassigned :
    (simple_greedy_assignments [("S1", ["C1", "C2"])]
      [{ sectionId := "SEC1", courseId := "C1", teacher := "T1", capacity := 10 },
       { sectionId := "SEC2", courseId := "C2", teacher := "T2", capacity := 10 }]).1
      = [("S1", "SEC1")] ∧
    ("S1", "SEC2") ∉ (simple_greedy_assignments [("S1", ["C1", "C2"])]
      [{ sectionId := "SEC1", courseId := "C1", teacher := "T1", capacity := 10 },
       { sectionId := "SEC2", courseId := "C2", teacher := "T2", capacity := 10 }]).1 ∧
    firstOpenSection
      (decCap (sectionCapacityMap
        [{ sectionId := "SEC1", courseId := "C1", teacher := "T1", capacity := 10 },
         { sectionId := "SEC2", courseId := "C2", teacher := "T2", capacity := 10 }]) "SEC1")
      (courseSections
        [{ sectionId := "SEC1", courseId := "C1", teacher := "T1", capacity := 10 },
         { sectionId := "SEC2", courseId := "C2", teacher := "T2", capacity := 10 }] "C2")
      = some "SEC2" := by
  decide

lemma greedyFold_keys_nodup (roster : List Sec) :
    ∀ (students : List (String × List String))
      (st : List (String × String) × List (String × Int)),
      (st.1.map Prod.fst).Nodup →
      (((students.foldl (greedyStep roster) st).1).map Prod.fst).Nodup := by
  intro students
  induction students with
  | nil => intro st h; exact h
  | cons p t ih =>
      intro st h
      rw [List.foldl_cons]
      apply ih
      by_cases hany : st.1.any (fun q => q.1 == p.1) = true
      · simpa [greedyStep, hany] using h
      · have hnotin : p.1 ∉ st.1.map Prod.fst := by
          intro hmem
          apply hany
          rw [List.any_eq_true]
          obtain ⟨q, hq, hq1⟩ := List.mem_map.mp hmem
          exact ⟨q, hq, by simp [hq1]⟩
        simp only [greedyStep]
        rw [if_neg (by simpa using hany)]
        cases hgl : greedyCourseLoop roster st.2 p.2 with
        | mk osid cap' =>
            cases osid with
            | none => simpa using h
            | some sid =>
                simp only [List.map_append, List.map_cons, List.map_nil]
                rw [List.nodup_append]
                refine ⟨h, List.nodup_singleton _, ?_⟩
                intro x hx hx'
                simp only [List.mem_singleton] at hx'
                exact hnotin (hx' ▸ hx)

/-- Claim C5 (amended): each student receives at most one warm-start
assignment.  Scanning the student's requested courses in preference order,
the loop assigns the first section (in input order) with a positive
remaining-capacity counter of the first course for which such a section
exists, decrementing that counter once; when no course has an open section
the student is skipped with the capacity map untouched.  The assignment
dict holds at most one entry per student id, and the phase is total (never
raises). -/
theorem simple_greedy_first_available_only :
    (∀ (roster : List Sec) (cap : List (String × Int)) (courses : List String)
        (sid : String) (cap' : List (String × Int)),
        greedyCourseLoop roster cap courses = (some sid, cap') →
        ∃ cs1 c cs2, courses = cs1 ++ c :: cs2 ∧
          (∀ c' ∈ cs1, firstOpenSection cap (courseSections roster c') = none) ∧
          firstOpenSection cap (courseSections roster c) = some sid ∧
          cap' = decCap cap sid) ∧
    (∀ (roster : List Sec) (cap : List (String × Int)) (courses : List String)
        (cap' : List (String × Int)),
        greedyCourseLoop roster cap courses = (none, cap') →
        cap' = cap ∧
        ∀ c ∈ courses, firstOpenSection cap (courseSections roster c) = none) ∧
    (∀ (students : List (String × List String)) (roster : List Sec),
        ((simple_greedy_assignments students roster).1.map Prod.fst).Nodup) := by
  refine ⟨?_, ?_, ?_⟩
  · intro roster cap courses
    induction courses with
    | nil => intro sid cap' h; simp [greedyCourseLoop] at h
    | cons c rest ih =>
        intro sid cap' h
        simp only [greedyCourseLoop] at h
        cases hfo : firstOpenSection cap (courseSections roster c) with
        | some s0 =>
            rw [hfo] at h
            simp only [Prod.mk.injEq, Option.some.injEq] at h
            obtain ⟨hs, hc⟩ := h
            exact ⟨[], c, rest, rfl, by simp, by rw [hfo, hs],
              by rw [← hs]; exact hc.symm⟩
        | none =>
            rw [hfo] at h
            obtain ⟨cs1, c', cs2, heq, hall, hfind, hcap⟩ := ih sid cap' h
            refine ⟨c :: cs1, c', cs2, by rw [heq]; rfl, ?_, hfind, hcap⟩
            intro c'' hc''
            rcases List.mem_cons.mp hc'' with hcc | hcc
            · rw [hcc]; exact hfo
            · exact hall c'' hcc
  · intro roster cap courses
    induction courses with
    | nil =>
        intro cap' h
        simp only [greedyCourseLoop, Prod.mk.injEq] at h
        exact ⟨h.2.symm, by simp⟩
    | cons c rest ih =>
        intro cap' h
        simp only [greedyCourseLoop] at h
        cases hfo : firstOpenSection cap (courseSections roster c) with
        | some s0 => rw [hfo] at h; simp at h
        | none =>
            rw [hfo] at h
            obtain ⟨hcap, hall⟩ := ih cap' h
            refine ⟨hcap, ?_⟩
            intro c'' hc''
            rcases List.mem_cons.mp hc'' with hcc | hcc
            · rw [hcc]; exact hfo
            · exact hall c'' hcc
  · intro students roster
    exact greedyFold_keys_nodup roster students ([], sectionCapacityMap roster)
      (by simp)

theorem simple_greedy_first_available_only_witness :
    ∃ cs1 c cs2, (["C1", "C2"] : List String) = cs1 ++ c :: cs2 ∧
      (∀ c' ∈ cs1, firstOpenSection [("SEC1", (10 : Int)), ("SEC2", 10)]
        (courseSections
          [{ sectionId := "SEC1", courseId := "C1", teacher := "T1", capacity := 10 },
           { sectionId := "SEC2", courseId := "C2", teacher := "T2", capacity := 10 }]
          c') = none) ∧
      firstOpenSection [("SEC1", (10 : Int)), ("SEC2", 10)]
        (courseSections
          [{ sectionId := "SEC1", courseId := "C1", teacher := "T1", capacity := 10 },
           { sectionId := "SEC2", courseId := "C2", teacher := "T2", capacity := 10 }]
          c) = some "SEC1" ∧
      [("SEC1", (9 : Int)), ("SEC2", 10)] =
        decCap [("SEC1", (10 : Int)), ("SEC2", 10)] "SEC1" :=
  simple_greedy_first_available_only.1
    [{ sectionId := "SEC1", courseId := "C1", teacher := "T1", capacity := 10 },
     { sectionId := "SEC2", courseId := "C2", teacher := "T2", capacity := 10 }]
    [("SEC1", (10 : Int)), ("SEC2", 10)] ["C1", "C2"] "SEC1"
    [("SEC1", (9 : Int)), ("SEC2", 10)] (by decide)

/-- Claim C1 (counterexample): student S1 requests C1 and C2 but the roster
only carries a C1 section.  The claim demands a fatal, pre-solve error.
Instead: `load_all` completes normally and hands the data on (its
validation merely appends a warning naming S1 and C2 to the issue log),
and `add_constraints` builds the model with a hard course-requirement
constraint for (S1, C1) only — the (S1, C2) request is silently omitted
because of the `if course_id in self.course_to_sections` guard. -/
theorem model_built_despite_unknown_course :
    hard_course_constraints [("S1", ["C1", "C2"])]
        [{ sectionId := "SEC1", courseId := "C1", teacher := "T1", capacity := 30 }]
      = [("S1", "C1")] ∧
    ("S1", "C2") ∉ hard_course_constraints [("S1", ["C1", "C2"])]
        [{ sectionId := "SEC1", courseId := "C1", teacher := "T1", capacity := 30 }] ∧
    load_all
        [{ sectionId := "SEC1", courseId := "C1", teacher := "T1", capacity := 30 }]
        [("S1", ["C1", "C2"])]
      = (([{ sectionId := "SEC1", courseId := "C1", teacher := "T1", capacity := 30 }],
          [("S1", ["C1", "C2"])]),
         [("S1", ["C2"])]) := by
  decide

/-- Claim C1 (amended): a student (within the first `MAX_LOG_ENTRIES`
preference rows) who requests a course with no section gets a diagnosable
validation warning naming that student and listing each such course — but
loading does not abort, and model construction continues, creating a hard
course-requirement constraint exactly for the requested courses that do
have sections, silently omitting the others. -/
theorem validation_warns_and_constraints_skip :
    (∀ (roster : List Sec) (prefs : List (String × List String))
        (sid : String) (courses : List String),
        (sid, courses) ∈ prefs.take MAX_LOG_ENTRIES →
        (∃ c ∈ courses, (roster.map (fun s => s.courseId)).contains c = false) →
        ∃ unknown, (sid, unknown) ∈ validate_relationships roster prefs ∧
          ∀ c ∈ courses, (roster.map (fun s => s.courseId)).contains c = false →
            c ∈ unknown) ∧
    (∀ (students : List (String × List String)) (roster : List Sec)
        (sid c : String),
        (sid, c) ∈ hard_course_constraints students roster →
        (courseSections roster c).isEmpty = false) ∧
    (∀ (students : List (String × List String)) (roster : List Sec)
        (sid : String) (courses : List String) (c : String),
        (sid, courses) ∈ students → c ∈ courses →
        (courseSections roster c).isEmpty = false →
        (sid, c) ∈ hard_course_constraints students roster) := by
  refine ⟨?_, ?_, ?_⟩
  · intro roster prefs sid courses hmem hex
    refine ⟨courses.filter
      (fun c => ! (roster.map (fun s => s.courseId)).contains c), ?_, ?_⟩
    · simp only [validate_relationships]
      rw [List.mem_filter]
      constructor
      · exact List.mem_map_of_mem
          (fun p => (p.1, p.2.filter
            (fun c => ! (roster.map (fun s => s.courseId)).contains c))) hmem
      · obtain ⟨c, hc, hcf⟩ := hex
        have : c ∈ courses.filter
            (fun c => ! (roster.map (fun s => s.courseId)).contains c) := by
          rw [List.mem_filter]
          exact ⟨hc, by rw [Bool.not_eq_true']; exact hcf⟩
        simp only [Bool.not_eq_true']
        rw [List.isEmpty_eq_false_iff_exists_mem]
        exact ⟨c, this⟩
    · intro c hc hcf
      rw [List.mem_filter]
      exact ⟨hc, by rw [Bool.not_eq_true']; exact hcf⟩
  · intro students roster sid c hmem
    simp only [hard_course_constraints] at hmem
    rw [List.mem_flatMap] at hmem
    obtain ⟨p, _, hp2⟩ := hmem
    rw [List.mem_map] at hp2
    obtain ⟨c', hc', hceq⟩ := hp2
    have hcc : c' = c := by
      have := congrArg Prod.snd hceq
      simpa using this
    have := (List.mem_filter.mp hc').2
    rw [hcc] at this
    simpa using this
  · intro students roster sid courses c hs hc hne
    simp only [hard_course_constraints]
    rw [List.mem_flatMap]
    refine ⟨(sid, courses), hs, ?_⟩
    rw [List.mem_map]
    refine ⟨c, ?_, rfl⟩
    rw [List.mem_filter]
    exact ⟨hc, by rw [Bool.not_eq_true']; exact hne⟩

theorem validation_warns_and_constraints_skip_witness :
    (∃ unknown,
      ("S1", unknown) ∈ validate_relationships
        [{ sectionId := "SEC1", courseId := "C1", teacher := "T1", capacity := 30 }]
        [("S1", ["C1", "C2"])] ∧
      ∀ c ∈ (["C1", "C2"] : List String),
        (([{ sectionId := "SEC1", courseId := "C1", teacher := "T1",
             capacity := 30 }] : List Sec).map (fun s => s.courseId)).contains c
          = false →
        c ∈ unknown) ∧
    ("S1", "C1") ∈ hard_course_constraints [("S1", ["C1", "C2"])]
      [{ sectionId := "SEC1", courseId := "C1", teacher := "T1", capacity := 30 }] :=
  ⟨validation_warns_and_constraints_skip.1
    [{ sectionId := "SEC1", courseId := "C1", teacher := "T1", capacity := 30 }]
    [("S1", ["C1", "C2"])] "S1" ["C1", "C2"] (by decide)
    ⟨"C2", by decide, by decide⟩,
   validation_warns_and_constraints_skip.2.2 [("S1", ["C1", "C2"])]
    [{ sectionId := "SEC1", courseId := "C1", teacher := "T1", capacity := 30 }]
    "S1" ["C1", "C2"] "C1"
    (by decide) (by decide) (by decide)⟩

/-- Claim C2 (amended: `K ≥ 1`): with every MILP run succeeding and a
decision oracle that returns an empty action list on each call, `run`
terminates after at most `K + 1` iterations (in fact after exactly one: the first pass either
converges or, with no action suggested, stalls immediately since
`max_no_change = 1`; with `K = 1` the registrar step is skipped and the
range is exhausted) and the returned record names a valid best iteration:
its index is within the executed range, its score is the recorded score of
that iteration, and the final output path is reported. -/
theorem pipeline_run_stalling_oracle :
    ∀ (env : RunEnv) (K : Nat),
      (∀ i, env.decideActions i = []) →
      (∀ i, env.milpOk i = true) →
      1 ≤ K →
      pipeline_run env K =
        { status := "completed", bestIteration := 0,
          bestScore := some (calculate_optimization_score (env.analysis 0)),
          totalIterations := 1, finalPath := "final" } ∧
      (pipeline_run env K).totalIterations ≤ K + 1 ∧
      (pipeline_run env K).bestIteration < (pipeline_run env K).totalIterations := by
  intro env K hdec hmilp hK
  have key : pipeline_run env K =
      { status := "completed", bestIteration := 0,
        bestScore := some (calculate_optimization_score (env.analysis 0)),
        totalIterations := 1, finalPath := "final" } := by
    obtain ⟨fuel, rfl⟩ : ∃ fuel, K = fuel + 1 := ⟨K - 1, by omega⟩
    by_cases hno : needs_optimization (env.analysis 0) = false
    · simp [pipeline_run, runLoop, hmilp 0, hno, ltBest]
    · have hno' : needs_optimization (env.analysis 0) = true := by
        simpa using hno
      by_cases hlt : 0 + 1 < fuel + 1
      · simp [pipeline_run, runLoop, hmilp 0, hno', hlt, hdec 0, ltBest]
      · have hf : fuel = 0 := by omega
        subst hf
        simp [pipeline_run, runLoop, hmilp 0, hno', ltBest]
  refine ⟨key, ?_, ?_⟩
  · rw [key]
    show (1 : Nat) ≤ K + 1
    omega
  · rw [key]
    show (0 : Nat) < 1
    decide

/-- A concrete run environment for exercising `pipeline_run`: every MILP
run succeeds, every analysis sees one under-target section, the oracle
never suggests an action. -/
def stallEnv : RunEnv :=
  { milpOk := fun _ => true,
    analysis := fun _ => { under_target := 1, optimal_range := 4, over_target := 0 },
    decideActions := fun _ => [],
    appliedCount := fun _ => 0 }

theorem pipeline_run_stalling_oracle_witness :
    (pipeline_run stallEnv 3).totalIterations ≤ 3 + 1 ∧
    (pipeline_run stallEnv 3).bestIteration <
      (pipeline_run stallEnv 3).totalIterations ∧
    pipeline_run stallEnv 3 =
      { status := "completed", bestIteration := 0, bestScore := some 0,
        totalIterations := 1, finalPath := "final" } := by
  have h := pipeline_run_stalling_oracle stallEnv 3
    (fun _ => rfl) (fun _ => rfl) (by decide)
  refine ⟨h.2.1, h.2.2, h.1.trans ?_⟩
  have hsc : calculate_optimization_score
      { under_target := 1, optimal_range := 4, over_target := 0 } = 0 := by
    norm_num [calculate_optimization_score]
  simp [stallEnv, hsc]

/-- Claim C2 (counterexample): with `max_iterations = 0` the
`for i in range(max_iterations)` loop never executes, yet `run` still
reports `best_iteration = 0` with `best_score` untouched at infinity —
there is no executed iteration the record could validly name (and the
post-loop analysis of iteration 0's nonexistent output directory would
fail), so the claim's "valid best iteration" part does not hold for every
configuration. -/
theorem pipeline_run_zero_iterations :
    (pipeline_run stallEnv 0).totalIterations = 0 ∧
    ¬ ((pipeline_run stallEnv 0).bestIteration <
        (pipeline_run stallEnv 0).totalIterations) ∧
    (pipeline_run stallEnv 0).bestScore = none := by
  decide
